import Mathlib

/- Verification of the EDIFACT IFTMIN decoder core of src/streamlit_app.py.

   Shallow embedding conventions:
   - Python strings are Lean `String`; all character-level operations
     (split, strip, replace, join, startswith, slicing) are implemented on
     `List Char` with structural recursion so that concrete inputs evaluate
     inside the kernel.
   - Python `float` values produced by `float(...)` are modelled as `ℚ`.
     The model of `float(...)` covers plain decimal literals (optional
     sign, digits, at most one decimal point); the exotic forms CPython
     also accepts (exponents, inf/nan, underscores, surrounding
     whitespace) are outside the trading-partner profile handled by the
     decoder and are treated as parse failures.
   - Python dicts with a fixed key set are modelled as structures with
     `Option` fields (a key that is never assigned is `none`); dicts with
     open key sets (`parties`, `monetary`) are insertion-ordered
     association lists with overwrite-on-repeat.
   - Python exceptions escaping a decode call are modelled with
     `Except String`; decoders in which no statement can raise are plain
     functions. -/

/-- A tokenized segment: tag plus the list of composite elements, exactly
the pairs produced by `split_segments`. -/
abbrev Segment := String × List String

/-- Split a character list on a separator character, keeping empty chunks:
the model of Python `str.split(sep)` for a one-character separator.  The
second argument accumulates the current chunk in reverse. -/
def splitOnCharL (sep : Char) : List Char → List Char → List (List Char)
  | [], acc => [acc.reverse]
  | c :: cs, acc =>
      if c = sep then acc.reverse :: splitOnCharL sep cs []
      else splitOnCharL sep cs (c :: acc)

/-- Python `s.split(sep)` for one-character `sep`, on `String`. -/
def splitOnChar (sep : Char) (s : String) : List String :=
  (splitOnCharL sep s.toList []).map String.mk

/-- Python `sep.join(pieces)` for a one-character separator, on char lists. -/
def joinCharL (sep : Char) : List (List Char) → List Char
  | [] => []
  | [x] => x
  | x :: y :: rest => x ++ sep :: joinCharL sep (y :: rest)

/-- Python `sep.join(pieces)` for a one-character separator. -/
def joinChar (sep : Char) (l : List String) : String :=
  String.mk (joinCharL sep (l.map String.toList))

/-- Python `s.split(sep, 1)`: the part before the first separator and the
rest of the string (later separators kept). -/
def splitOnce (sep : Char) (s : String) : String × String :=
  let parts := splitOnChar sep s
  (parts.headD "", joinChar sep parts.tail)

/-- Python `s.strip()` on a char list (whitespace removed from both ends). -/
def pyStripList (l : List Char) : List Char :=
  ((l.dropWhile Char.isWhitespace).reverse.dropWhile Char.isWhitespace).reverse

/-- Python `s.strip()`. -/
def pyStrip (s : String) : String := String.mk (pyStripList s.toList)

/-- Python `s.strip(chars)`: every character in `cs` removed from both ends. -/
def pyStripChars (cs : List Char) (s : String) : String :=
  String.mk (((s.toList.dropWhile (fun c => cs.contains c)).reverse.dropWhile
      (fun c => cs.contains c)).reverse)

/-- Python list/string prefix test: first argument is the candidate prefix. -/
def listStarts : List Char → List Char → Bool
  | [], _ => true
  | _ :: _, [] => false
  | p :: ps, s :: ss => p = s && listStarts ps ss

/-- Python `s.startswith(pre)`. -/
def pyStartsWith (s pre : String) : Bool := listStarts pre.toList s.toList

/-- Python `s[n:]` (slicing by characters). -/
def pyDrop (s : String) (n : Nat) : String := String.mk (s.toList.drop n)

/-- Python `s.replace(":", " ")`: every sub-element separator becomes a
literal space. -/
def mapColonSpace (s : String) : String :=
  String.mk (s.toList.map (fun c => if c = ':' then Char.ofNat 32 else c))

/-- Numeric value of a list of ASCII digit characters. -/
def digitsToNat (l : List Char) : Nat :=
  l.foldl (fun n c => 10 * n + (c.toNat - 48)) 0

/-- Model of Python `float(s)` on plain decimal literals (see the header
comment for the modelling boundary): optional sign, then digits with at
most one decimal point and at least one digit. -/
def pyFloatCore (l : List Char) : Option ℚ :=
  let ip := l.takeWhile Char.isDigit
  let rest := l.dropWhile Char.isDigit
  match rest with
  | [] => if ip = [] then none else some ((digitsToNat ip : ℚ))
  | c :: frac =>
      if c = '.' ∧ frac.all Char.isDigit ∧ (ip ≠ [] ∨ frac ≠ []) then
        some ((digitsToNat ip : ℚ) + (digitsToNat frac : ℚ) / ((10 : ℚ) ^ frac.length))
      else none

/-- Model of Python `float(s)` (sign handling). -/
def pyFloat? (s : String) : Option ℚ :=
  match s.toList with
  | '-' :: rest => (pyFloatCore rest).map (fun q => -q)
  | '+' :: rest => pyFloatCore rest
  | l => pyFloatCore l

/-- Python `int(f)` for a float: truncation toward zero. -/
def pyTrunc (q : ℚ) : Int := if 0 ≤ q then Rat.floor q else -(Rat.floor (-q))

/-- Helper for the `DECIMAL_COMMA` lookaround test. -/
def isDigitOpt : Option Char → Bool
  | some c => c.isDigit
  | none => false

/-- One pass of `DECIMAL_COMMA.sub(".", s)`: a comma is replaced by a dot
exactly when the original previous and next characters are digits
(the regex lookbehind/lookahead are zero-width, so consecutive commas are
all tested against the original text). -/
def dcGo : Option Char → List Char → List Char
  | _, [] => []
  | prev, c :: rest =>
      (if c = ',' && isDigitOpt prev && isDigitOpt rest.head? then '.' else c)
        :: dcGo (some c) rest

/-- `DECIMAL_COMMA.sub(".", s)`: decimal commas become decimal dots. -/
def decimalCommaSub (s : String) : String := String.mk (dcGo none s.toList)

/-- `_to_float` of the source: `None`/empty input gives `None`, otherwise
decimal-comma normalization followed by `float(...)`, with failures
caught and turned into `None`. -/
def _to_float : Option String → Option ℚ
  | none => none
  | some v => if v = "" then none else pyFloat? (decimalCommaSub v)

/-- Gregorian leap-year test (as validated by `datetime`). -/
def isLeapYear (y : Nat) : Bool :=
  y % 4 = 0 && (y % 100 != 0 || y % 400 = 0)

/-- Days in a month, as validated by the `datetime` constructor. -/
def daysInMonth (y m : Nat) : Nat :=
  if m = 2 then (if isLeapYear y then 29 else 28)
  else if m = 4 ∨ m = 6 ∨ m = 9 ∨ m = 11 then 30 else 31

/-- Model of `datetime.strptime(value, "%Y%m%d%H%M")` followed by
`strftime("%Y-%m-%d %H:%M")`.  On a 12-character value the strptime
pattern can only succeed by taking every field at its full width, so
success means: all digits, year nonzero, month 01-12, day valid for the
month, hour 00-23, minute 00-59.  (Years below 1000 render
platform-dependently in CPython; the profile only uses 4-digit years and
they are modelled as rendered verbatim.) -/
def strptime203 (value : String) : Option String :=
  let l := value.toList
  if l.length = 12 ∧ l.all Char.isDigit then
    let y := digitsToNat (l.take 4)
    let mo := digitsToNat ((l.drop 4).take 2)
    let d := digitsToNat ((l.drop 6).take 2)
    let hh := digitsToNat ((l.drop 8).take 2)
    let mi := digitsToNat ((l.drop 10).take 2)
    if 1 ≤ y ∧ 1 ≤ mo ∧ mo ≤ 12 ∧ 1 ≤ d ∧ d ≤ daysInMonth y mo ∧ hh ≤ 23 ∧ mi ≤ 59 then
      some (String.mk (l.take 4) ++ "-" ++ String.mk ((l.drop 4).take 2) ++ "-" ++
            String.mk ((l.drop 6).take 2) ++ " " ++ String.mk ((l.drop 8).take 2) ++ ":" ++
            String.mk ((l.drop 10).take 2))
    else none
  else none

/-- Model of `datetime.strptime(value, "%Y%m%d%H%M%S")` followed by
`strftime("%Y-%m-%d %H:%M:%S")` (the regex would admit seconds 60/61 but
the datetime constructor rejects them, so seconds are 00-59). -/
def strptime204 (value : String) : Option String :=
  let l := value.toList
  if l.length = 14 ∧ l.all Char.isDigit then
    let y := digitsToNat (l.take 4)
    let mo := digitsToNat ((l.drop 4).take 2)
    let d := digitsToNat ((l.drop 6).take 2)
    let hh := digitsToNat ((l.drop 8).take 2)
    let mi := digitsToNat ((l.drop 10).take 2)
    let ss := digitsToNat ((l.drop 12).take 2)
    if 1 ≤ y ∧ 1 ≤ mo ∧ mo ≤ 12 ∧ 1 ≤ d ∧ d ≤ daysInMonth y mo ∧ hh ≤ 23 ∧ mi ≤ 59 ∧ ss ≤ 59 then
      some (String.mk (l.take 4) ++ "-" ++ String.mk ((l.drop 4).take 2) ++ "-" ++
            String.mk ((l.drop 6).take 2) ++ " " ++ String.mk ((l.drop 8).take 2) ++ ":" ++
            String.mk ((l.drop 10).take 2) ++ ":" ++ String.mk ((l.drop 12).take 2))
    else none
  else none

/-- Model of `datetime.strptime(value, "%Y%m%d")` followed by
`strftime("%Y-%m-%d")`. -/
def strptime102 (value : String) : Option String :=
  let l := value.toList
  if l.length = 8 ∧ l.all Char.isDigit then
    let y := digitsToNat (l.take 4)
    let mo := digitsToNat ((l.drop 4).take 2)
    let d := digitsToNat ((l.drop 6).take 2)
    if 1 ≤ y ∧ 1 ≤ mo ∧ mo ≤ 12 ∧ 1 ≤ d ∧ d ≤ daysInMonth y mo then
      some (String.mk (l.take 4) ++ "-" ++ String.mk ((l.drop 4).take 2) ++ "-" ++
            String.mk ((l.drop 6).take 2))
    else none
  else none

/-- Model of `datetime.strptime(d + t, "%y%m%d%H%M")` followed by
`strftime("%Y-%m-%d %H:%M")`, for the zero-padded 10-digit profile
(2-digit year pivot: 00-68 maps to 2000-2068, 69-99 to 1969-1999).
Shorter unpadded variants that CPython's backtracking regex can also
accept are outside the trading-partner profile and treated as parse
failures. -/
def strptimeUNB (value : String) : Option String :=
  let l := value.toList
  if l.length = 10 ∧ l.all Char.isDigit then
    let yy := digitsToNat (l.take 2)
    let y := if yy ≤ 68 then 2000 + yy else 1900 + yy
    let mo := digitsToNat ((l.drop 2).take 2)
    let d := digitsToNat ((l.drop 4).take 2)
    let hh := digitsToNat ((l.drop 6).take 2)
    let mi := digitsToNat ((l.drop 8).take 2)
    if 1 ≤ mo ∧ mo ≤ 12 ∧ 1 ≤ d ∧ d ≤ daysInMonth y mo ∧ hh ≤ 23 ∧ mi ≤ 59 then
      some (toString y ++ "-" ++ String.mk ((l.drop 2).take 2) ++ "-" ++
            String.mk ((l.drop 4).take 2) ++ " " ++ String.mk ((l.drop 6).take 2) ++ ":" ++
            String.mk ((l.drop 8).take 2))
    else none
  else none

/-- `_dtm` of the source: format `203` on 12 characters, `204` on 14,
`102` on 8; a length mismatch falls through and a strptime failure is
caught, both returning the raw value. -/
def _dtm (value : String) (fmt_code : String) : String :=
  if fmt_code = "203" ∧ value.length = 12 then
    match strptime203 value with
    | some s => s
    | none => value
  else if fmt_code = "204" ∧ value.length = 14 then
    match strptime204 value with
    | some s => s
    | none => value
  else if fmt_code = "102" ∧ value.length = 8 then
    match strptime102 value with
    | some s => s
    | none => value
  else value

/-- The segment terminator `SEG_SEP = "'"` of the source (written via its
code point). -/
def segSepChar : Char := Char.ofNat 39

/-- `SEG_SEP` as a string, for building raw interchange texts. -/
def SEG_SEP : String := String.mk [segSepChar]

/-- `split_segments` of the source: strip the text, delete line breaks,
split on the segment terminator discarding empty fragments, split each
segment on the element separator; the first token (stripped) is the tag
and the remainder are the composite elements. -/
def split_segments (text : String) : List Segment :=
  let raw := ((pyStripList text.toList).filter (fun c => c ≠ Char.ofNat 10)).filter
      (fun c => c ≠ Char.ofNat 13)
  let parts := (splitOnCharL segSepChar raw []).filter (fun p => p ≠ [])
  parts.map (fun p =>
    let chunks := splitOnCharL '+' p []
    (pyStrip (String.mk (chunks.headD [])), chunks.tail.map String.mk))

/-- The header dict of `IFTMINParser.header` (the Python key `"syntax"` is
the field `syn`; a key never assigned is `none`). -/
structure Header where
  syn : Option String := none
  sender : Option String := none
  receiver : Option String := none
  interchange_datetime : Option String := none
  interchange_control : Option String := none
  message_ref : Option String := none
  message_type : Option String := none
  document_type : Option String := none
  manifest_number : Option String := none
  msg_function : Option String := none
  message_datetime : Option String := none
  shipment_date : Option String := none
  currency : Option String := none
  terms : Option String := none
  warehouse : Option String := none
deriving DecidableEq

/-- One iteration of the `header` loop (last wins on repeats). -/
def headerStep (data : Header) (seg : Segment) : Header :=
  let tag := seg.1
  let elems := seg.2
  if tag = "UNB" then
    let dt := elems.getD 3 ""
    let d1 : Header := { data with
      syn := some (elems.getD 0 ""),
      sender := some ((splitOnChar ':' (elems.getD 1 "")).headD ""),
      receiver := some ((splitOnChar ':' (elems.getD 2 "")).headD "") }
    let d2 : Header :=
      if dt ≠ "" ∧ dt.toList.contains ':' then
        { d1 with interchange_datetime := some ((strptimeUNB ((splitOnce ':' dt).1 ++ (splitOnce ':' dt).2)).getD dt) }
      else d1
    { d2 with interchange_control := some (elems.getD 4 "") }
  else if tag = "UNH" then
    { data with message_ref := some (elems.getD 0 ""),
                message_type := some (elems.getD 1 "") }
  else if tag = "BGM" then
    { data with document_type := some (elems.getD 0 ""),
                manifest_number := some (elems.getD 1 ""),
                msg_function := some (elems.getD 2 "") }
  else if tag = "DTM" then
    if elems ≠ [] then
      let comps := splitOnChar ':' (elems.headD "")
      if 2 ≤ comps.length then
        let code := comps.headD ""
        let value := comps.getD 1 ""
        let fmt := comps.getD 2 ""
        if code = "9" then { data with message_datetime := some (_dtm value fmt) }
        else if code = "10" then { data with shipment_date := some (_dtm value fmt) }
        else data
      else data
    else data
  else if tag = "CUX" then
    if elems ≠ [] then
      let parts := splitOnChar ':' (elems.headD "")
      { data with currency := some (if 1 < parts.length then parts.getD 1 "" else elems.headD "") }
    else data
  else if tag = "TOD" then
    if 2 ≤ elems.length then { data with terms := some (elems.getD 1 "") } else data
  else if tag = "LOC" then
    if elems ≠ [] then
      let e := elems.headD ""
      if e = "198+WTAM" then { data with warehouse := some "WTAM" }
      else if pyStartsWith e "198" = true then
        let tok := splitOnChar '+' e
        if 2 ≤ tok.length then { data with warehouse := some (tok.getD 1 "") } else data
      else data
    else data
  else data

/-- `IFTMINParser.header`: a single pass over the segments. -/
def header (segs : List Segment) : Header := segs.foldl headerStep {}

/-- The dict built by `IFTMINParser.counts_and_amounts` (the Python key
`total_value_eur` carries what the spec calls total_value). -/
structure Counts where
  line_count : Option Int := none
  total_gross_weight_kg : Option ℚ := none
  shipment_count : Option Int := none
  total_value_eur : Option ℚ := none
deriving DecidableEq

/-- One iteration of the `counts_and_amounts` loop:
`qual, val = (elems[0].split(":") + [None])[:2]` followed by the
qualifier dispatch.  `int(x or 0)` is truncation of the float, with
`None` (and float zero) giving 0. -/
def cntStep (out : Counts) (seg : Segment) : Counts :=
  if seg.1 = "CNT" ∧ seg.2 ≠ [] then
    let parts := splitOnChar ':' (seg.2.headD "")
    let qual := parts.headD ""
    let val : Option String := parts.get? 1
    if qual = "2" then { out with line_count := some (pyTrunc ((_to_float val).getD 0)) }
    else if qual = "7" then { out with total_gross_weight_kg := _to_float val }
    else if qual = "8" then { out with shipment_count := some (pyTrunc ((_to_float val).getD 0)) }
    else if qual = "12" then { out with total_value_eur := _to_float val }
    else out
  else out

/-- `IFTMINParser.counts_and_amounts`. -/
def counts_and_amounts (segs : List Segment) : Counts := segs.foldl cntStep {}

/-- One entry of the `parties` dict.  The `refs` sub-dict of the synthetic
`"IV"` party only ever holds the key `"VAT"`, modelled as the field
`vat`. -/
structure Party where
  qualifier : Option String := none
  party_id : Option String := none
  name : Option String := none
  addr : Option String := none
  city : Option String := none
  state : Option String := none
  zip : Option String := none
  country : Option String := none
  role : Option String := none
  tel : Option String := none
  vat : Option String := none
deriving DecidableEq

/-- Python dict update on an insertion-ordered association list:
`d.setdefault(k, {})` followed by a field update, or plain assignment
when `f` ignores its argument. -/
def dictUpsert (k : String) (f : Party → Party) : List (String × Party) → List (String × Party)
  | [] => [(k, f {})]
  | (k1, v) :: rest => if k1 = k then (k1, f v) :: rest else (k1, v) :: dictUpsert k f rest

/-- One iteration of the `parties` loop. -/
def partyStep (ps : List (String × Party)) (seg : Segment) : List (String × Party) :=
  let tag := seg.1
  let elems := seg.2
  if tag = "NAD" ∧ elems ≠ [] then
    let qual := elems.headD ""
    let rec1 : Party := {
      qualifier := some qual,
      party_id := some ((splitOnChar ':' (elems.getD 1 "")).headD ""),
      name := some (mapColonSpace (elems.getD 3 "")),
      addr := some (mapColonSpace (elems.getD 4 "")),
      city := some (elems.getD 5 ""),
      state := some (elems.getD 6 ""),
      zip := some (elems.getD 7 ""),
      country := some (elems.getD 8 "") }
    dictUpsert qual (fun _ => rec1) ps
  else if tag = "CTA" ∧ elems ≠ [] then
    dictUpsert "CTA" (fun p => { p with role := some (elems.headD "") }) ps
  else if tag = "COM" ∧ elems ≠ [] then
    dictUpsert "CTA"
      (fun p => { p with tel := some ((splitOnChar ':' (elems.headD "")).headD "") }) ps
  else if tag = "RFF" ∧ elems ≠ [] ∧ pyStartsWith (elems.headD "") "VA:" = true then
    dictUpsert "IV" (fun p => { p with vat := some (pyDrop (elems.headD "") 3) }) ps
  else ps

/-- `IFTMINParser.parties`. -/
def parties (segs : List Segment) : List (String × Party) := segs.foldl partyStep []

/-- An item row of `_extract_items_from_pci` (a key never assigned is
`none`; a reference-only item has only `asin`). -/
structure Item where
  uom : Option String := none
  qty : Option ℚ := none
  unit_price_try : Option ℚ := none
  asin : Option String := none
deriving DecidableEq

/-- The pending item built from a PCI item-line segment: the composites
are re-joined on the sub-element separator, split on it, and the fields
at positions length-4, length-3 and length-2 are quantity, unit of
measure and unit price (each guarded by the length). -/
def pciItem (elems : List String) : Item :=
  let fields := splitOnChar ':' (joinChar ':' elems)
  { uom := if 3 ≤ fields.length then some (fields.getD (fields.length - 3) "") else none,
    qty := if 4 ≤ fields.length then _to_float (some (fields.getD (fields.length - 4) "")) else none,
    unit_price_try :=
      if 2 ≤ fields.length then _to_float (some (fields.getD (fields.length - 2) "")) else none,
    asin := none }

/-- The pending-item loop of `_extract_items_from_pci`: a PCI segment
replaces the pending slot without emitting; an `RFF+VP:` segment attaches
the product reference to the pending item (or a fresh empty one) and
emits it; anything else is skipped; a pending item left at group end is
dropped. -/
def extractItemsAux : Option Item → List Segment → List Item
  | _, [] => []
  | pending, (tag, elems) :: rest =>
      if tag = "PCI" ∧ elems ≠ [] then
        extractItemsAux (some (pciItem elems)) rest
      else if tag = "RFF" ∧ elems ≠ [] ∧ pyStartsWith (elems.headD "") "VP:" = true then
        { pending.getD {} with asin := some (pyDrop (elems.headD "") 3) }
          :: extractItemsAux none rest
      else extractItemsAux pending rest

/-- `IFTMINParser._extract_items_from_pci`. -/
def _extract_items_from_pci (segs : List Segment) : List Item := extractItemsAux none segs

/-- The `consignee` dict of a shipment record (all six keys are assigned
together; a missing composite position yields the empty string). -/
structure Consignee where
  name : String := ""
  street : String := ""
  city : String := ""
  state : String := ""
  zip : String := ""
  country : String := ""
deriving DecidableEq

/-- The `dimensions_cm` dict (assigned wholesale by a DIM segment). -/
structure Dimensions where
  length : Option ℚ := none
  width : Option ℚ := none
  height : Option ℚ := none
deriving DecidableEq

/-- One shipment record of `IFTMINParser.shipments` (the nested `terms`,
`weights`, `dates` and `refs` dicts are flattened into their fixed
keys). -/
structure ShipRecord where
  packages : Option Int := none
  mode : Option String := none
  destination_city : Option String := none
  destination_country : Option String := none
  route : Option String := none
  monetary : List (String × Option ℚ) := []
  delivery_terms : Option String := none
  reason_for_export : Option String := none
  consignee : Option Consignee := none
  gross_kg : Option ℚ := none
  declared_kg : Option ℚ := none
  dimensions_cm : Option Dimensions := none
  scheduled_delivery : Option String := none
  pickup_time : Option String := none
  invoice_date : Option String := none
  tracking : Option String := none
  order_id : Option String := none
  phone : Option String := none
  items : List Item := []
deriving DecidableEq

/-- Python dict assignment `record["monetary"][qual] = amt` on an
insertion-ordered association list. -/
def moaUpsert (k : String) (v : Option ℚ) : List (String × Option ℚ) → List (String × Option ℚ)
  | [] => [(k, v)]
  | (k1, v1) :: rest => if k1 = k then (k1, v) :: rest else (k1, v1) :: moaUpsert k v rest

/-- One iteration of the per-group loop of `IFTMINParser.shipments`.
Two statements of the source can raise for non-conforming input and are
modelled with `Except.error`: `int(float(qty))` on a GID quantity that
`float` rejects, and the two-target unpacking `unit, val =
last.split(":")` on a MEA composite with more than one sub-element
separator. -/
def shipStep (r : ShipRecord) (seg : Segment) : Except String ShipRecord :=
  let tag := seg.1
  let elems := seg.2
  if tag = "GID" ∧ elems ≠ [] then
    if 2 ≤ elems.length ∧ (elems.getD 1 "").toList.contains ':' then
      let q := (splitOnChar ':' (elems.getD 1 "")).headD ""
      if (pyFloat? q).isSome then
        .ok { r with packages := some (pyTrunc ((pyFloat? q).getD 0)) }
      else .error "ValueError: could not convert string to float"
    else .ok r
  else if tag = "TMD" ∧ elems ≠ [] then
    .ok { r with mode := some ((splitOnChar ':' (elems.headD "")).getLastD "") }
  else if tag = "LOC" ∧ elems ≠ [] then
    let first := elems.headD ""
    if pyStartsWith first "7+" = true ∨ pyStartsWith first "7" = true then
      .ok { r with destination_city := some ((splitOnChar '+' first).getLastD "") }
    else if pyStartsWith first "25+" = true ∨ pyStartsWith first "25" = true then
      .ok { r with destination_country := some ((splitOnChar '+' first).getLastD "") }
    else if pyStartsWith first "193+" = true ∨ pyStartsWith first "193" = true then
      .ok { r with route := some ((splitOnChar '+' first).getLastD "") }
    else .ok r
  else if tag = "MOA" ∧ elems ≠ [] then
    let parts := splitOnChar ':' (elems.headD "")
    .ok { r with monetary := moaUpsert (parts.headD "") (_to_float (parts.get? 1)) r.monetary }
  else if tag = "FTX" ∧ elems ≠ [] then
    if elems.headD "" = "AAR" then
      .ok { r with delivery_terms := some (pyStrip (elems.getD 2 "")) }
    else if elems.headD "" = "AAH" then
      .ok { r with reason_for_export := some (pyStrip (elems.getD 2 "")) }
    else .ok r
  else if tag = "NAD" ∧ elems ≠ [] ∧ elems.headD "" = "CN" then
    let name := elems.getD 2 ""
    let name2 := elems.getD 3 ""
    .ok { r with consignee := some {
      name := pyStripChars ['+', Char.ofNat 32] (name ++ (if name2 ≠ "" then " " ++ name2 else "")),
      street := mapColonSpace (elems.getD 4 ""),
      city := elems.getD 5 "",
      state := elems.getD 6 "",
      zip := elems.getD 7 "",
      country := elems.getD 8 "" } }
  else if tag = "MEA" ∧ elems ≠ [] then
    if elems.headD "" = "WT" then
      let lastE := elems.getLastD ""
      if lastE.toList.contains ':' then
        let ps := splitOnChar ':' lastE
        if ps.length = 2 then .ok { r with gross_kg := _to_float (some (ps.getD 1 "")) }
        else .error "ValueError: too many values to unpack"
      else .ok r
    else if elems.headD "" = "WX" then
      let lastE := elems.getLastD ""
      if lastE.toList.contains ':' then
        let ps := splitOnChar ':' lastE
        if ps.length = 2 then .ok { r with declared_kg := _to_float (some (ps.getD 1 "")) }
        else .error "ValueError: too many values to unpack"
      else .ok r
    else .ok r
  else if tag = "DIM" ∧ elems ≠ [] then
    let comp := elems.getD 1 ""
    let parts := if comp ≠ "" then splitOnChar ':' comp else []
    if 4 ≤ parts.length then
      .ok { r with dimensions_cm := some {
        length := _to_float (some (parts.getD 1 "")),
        width := _to_float (some (parts.getD 2 "")),
        height := _to_float (some (parts.getD 3 "")) } }
    else .ok r
  else if tag = "DTM" ∧ elems ≠ [] then
    let c := splitOnChar ':' (elems.headD "")
    if 2 ≤ c.length then
      let code := c.headD ""
      let value := c.getD 1 ""
      let fmt := c.getD 2 ""
      if code = "17" then .ok { r with scheduled_delivery := some (_dtm value fmt) }
      else if code = "200" then .ok { r with pickup_time := some (_dtm value fmt) }
      else if code = "3" then .ok { r with invoice_date := some (_dtm value fmt) }
      else .ok r
    else .ok r
  else if tag = "RFF" ∧ elems ≠ [] then
    let e := elems.headD ""
    if pyStartsWith e "CR:" = true then .ok { r with tracking := some (pyDrop e 3) }
    else if pyStartsWith e "TB:" = true then .ok { r with order_id := some (pyDrop e 3) }
    else if pyStartsWith e "TE:" = true then .ok { r with phone := some (pyDrop e 3) }
    else .ok r
  else .ok r

/-- The GID-position comprehension of `_shipment_groups`, with the running
index made explicit. -/
def gidIdxsFrom (n : Nat) : List Segment → List Nat
  | [] => []
  | s :: rest => if s.1 = "GID" then n :: gidIdxsFrom (n + 1) rest else gidIdxsFrom (n + 1) rest

/-- Indices of the GID segments, in source order. -/
def gidIdxs (segs : List Segment) : List Nat := gidIdxsFrom 0 segs

/-- The slicing loop of `_shipment_groups`: `segments[start:end]` with
`end` the next GID index, the last slice running to the end. -/
def gidSlices (segs : List Segment) : List Nat → List (List Segment)
  | [] => []
  | [i] => [segs.drop i]
  | i :: j :: rest => (segs.take j).drop i :: gidSlices segs (j :: rest)

/-- `IFTMINParser._shipment_groups`. -/
def _shipment_groups (segs : List Segment) : List (List Segment) :=
  gidSlices segs (gidIdxs segs)

/-- The per-group body of `IFTMINParser.shipments`: fold the group through
`shipStep`, then attach the item list; an exception aborts the group. -/
def shipGroup (g : List Segment) : Except String ShipRecord := do
  let r ← g.foldlM shipStep {}
  pure { r with items := _extract_items_from_pci g }

/-- `IFTMINParser.shipments`: decode every group in order; the first
exception aborts the whole call, as in Python. -/
def shipments (segs : List Segment) : Except String (List ShipRecord) :=
  (_shipment_groups segs).mapM shipGroup

/-- Python dict lookup on the insertion-ordered association list. -/
def dictGet (k : String) : List (String × Party) → Option Party
  | [] => none
  | (k1, v) :: rest => if k1 = k then some v else dictGet k rest

theorem splitOnCharL_ne_nil (sep : Char) (l acc : List Char) :
    splitOnCharL sep l acc ≠ [] := by
  induction l generalizing acc with
  | nil => simp [splitOnCharL]
  | cons c cs ih =>
      simp only [splitOnCharL]
      split
      · simp
      · exact ih _

theorem splitOnCharL_no_sep (sep : Char) (l acc : List Char) (h : sep ∉ l) :
    splitOnCharL sep l acc = [acc.reverse ++ l] := by
  induction l generalizing acc with
  | nil => simp [splitOnCharL]
  | cons c cs ih =>
      have hc : c ≠ sep := fun hc => h (hc ▸ List.mem_cons_self c cs)
      have hcs : sep ∉ cs := fun hm => h (List.mem_cons_of_mem _ hm)
      simp only [splitOnCharL, if_neg (fun hcc => hc hcc)]
      rw [ih (c :: acc) hcs]
      simp

theorem splitOnCharL_sep_append (sep : Char) (l1 l2 acc : List Char) (h : sep ∉ l1) :
    splitOnCharL sep (l1 ++ sep :: l2) acc = (acc.reverse ++ l1) :: splitOnCharL sep l2 [] := by
  induction l1 generalizing acc with
  | nil => simp [splitOnCharL]
  | cons c cs ih =>
      have hc : c ≠ sep := fun hc => h (hc ▸ List.mem_cons_self c cs)
      have hcs : sep ∉ cs := fun hm => h (List.mem_cons_of_mem _ hm)
      simp only [List.cons_append, splitOnCharL, if_neg (fun hcc => hc hcc)]
      simpa [List.append_eq] using ih (c :: acc) hcs

theorem joinCharL_splitOnCharL (sep : Char) (l acc : List Char) :
    joinCharL sep (splitOnCharL sep l acc) = acc.reverse ++ l := by
  induction l generalizing acc with
  | nil => simp [splitOnCharL, joinCharL]
  | cons c cs ih =>
      simp only [splitOnCharL]
      split
      · rename_i hc
        rcases hx : splitOnCharL sep cs ([] : List Char) with _ | ⟨y, ys⟩
        · exact absurd hx (splitOnCharL_ne_nil sep cs [])
        · have h2 := ih ([] : List Char)
          rw [hx] at h2
          simp only [List.reverse_nil, List.nil_append] at h2
          simp only [joinCharL]
          rw [h2, hc]
      · rw [ih (c :: acc)]
        simp

theorem mem_splitOnCharL (sep : Char) (l acc x : List Char)
    (hacc : ∀ c ∈ acc, c ≠ sep) (hx : x ∈ splitOnCharL sep l acc) : sep ∉ x := by
  induction l generalizing acc with
  | nil =>
      simp only [splitOnCharL, List.mem_singleton] at hx
      subst hx
      intro hmem
      exact hacc sep (List.mem_reverse.mp hmem) rfl
  | cons c cs ih =>
      simp only [splitOnCharL] at hx
      by_cases hc : c = sep
      · rw [if_pos hc] at hx
        rcases List.mem_cons.mp hx with h1 | h1
        · subst h1
          intro hmem
          exact hacc sep (List.mem_reverse.mp hmem) rfl
        · exact ih [] (by simp) h1
      · rw [if_neg hc] at hx
        refine ih (c :: acc) ?_ hx
        intro a ha
        rcases List.mem_cons.mp ha with h1 | h1
        · exact h1 ▸ hc
        · exact hacc a h1

theorem toList_append (a b : String) : (a ++ b).toList = a.toList ++ b.toList := rfl

theorem mk_toList (s : String) : String.mk s.toList = s := rfl

theorem toList_mk (l : List Char) : (String.mk l).toList = l := rfl

theorem string_length_toList (s : String) : s.length = s.toList.length := rfl

theorem splitOnChar_sep_append (sep : Char) (a b : String) (h : sep ∉ a.toList) :
    splitOnChar sep (a ++ String.mk [sep] ++ b) = a :: splitOnChar sep b := by
  have hl : (a ++ String.mk [sep] ++ b).toList = a.toList ++ sep :: b.toList := by
    simp only [toList_append, toList_mk, List.append_assoc, List.singleton_append]
  unfold splitOnChar
  rw [hl, splitOnCharL_sep_append sep a.toList b.toList [] h]
  simp [mk_toList]

theorem splitOnChar_no_sep (sep : Char) (a : String) (h : sep ∉ a.toList) :
    splitOnChar sep a = [a] := by
  unfold splitOnChar
  rw [splitOnCharL_no_sep sep a.toList [] h]
  simp [mk_toList]

theorem joinChar_splitOnChar (sep : Char) (s : String) :
    joinChar sep (splitOnChar sep s) = s := by
  unfold joinChar splitOnChar
  rw [List.map_map]
  rw [show (String.toList ∘ String.mk) = id from funext (fun l => rfl), List.map_id]
  rw [joinCharL_splitOnCharL sep s.toList []]
  simp [mk_toList]

theorem splitOnce_sep_append (sep : Char) (a b : String) (h : sep ∉ a.toList) :
    splitOnce sep (a ++ String.mk [sep] ++ b) = (a, b) := by
  unfold splitOnce
  rw [splitOnChar_sep_append sep a b h]
  simp only [List.headD_cons, List.tail_cons]
  rw [show splitOnChar sep b = splitOnChar sep b from rfl]
  have := joinChar_splitOnChar sep b
  simp [this]

theorem mem_gidIdxsFrom (segs : List Segment) (n i : Nat) :
    i ∈ gidIdxsFrom n segs ↔ ∃ j, i = n + j ∧ ∃ s, segs.get? j = some s ∧ s.1 = "GID" := by
  induction segs generalizing n with
  | nil => simp [gidIdxsFrom]
  | cons s rest ih =>
      simp only [gidIdxsFrom]
      by_cases hs : s.1 = "GID"
      · rw [if_pos hs]
        simp only [List.mem_cons, ih (n + 1)]
        constructor
        · rintro (h | ⟨j, hj, t, ht, htag⟩)
          · exact ⟨0, by omega, s, rfl, hs⟩
          · exact ⟨j + 1, by omega, t, by simpa using ht, htag⟩
        · rintro ⟨j, hj, t, ht, htag⟩
          cases j with
          | zero => left; omega
          | succ k => right; exact ⟨k, by omega, t, by simpa using ht, htag⟩
      · rw [if_neg hs]
        rw [ih (n + 1)]
        constructor
        · rintro ⟨j, hj, t, ht, htag⟩
          exact ⟨j + 1, by omega, t, by simpa using ht, htag⟩
        · rintro ⟨j, hj, t, ht, htag⟩
          cases j with
          | zero =>
              simp only [List.get?_cons_zero, Option.some.injEq] at ht
              exact absurd (ht ▸ htag) hs
          | succ k => exact ⟨k, by omega, t, by simpa using ht, htag⟩

theorem gidIdxsFrom_lb (segs : List Segment) (n : Nat) :
    ∀ i ∈ gidIdxsFrom n segs, n ≤ i := by
  induction segs generalizing n with
  | nil => simp [gidIdxsFrom]
  | cons s rest ih =>
      intro i hi
      simp only [gidIdxsFrom] at hi
      by_cases hs : s.1 = "GID"
      · rw [if_pos hs] at hi
        rcases List.mem_cons.mp hi with h | h
        · exact le_of_eq h.symm
        · have := ih (n + 1) i h
          omega
      · rw [if_neg hs] at hi
        have := ih (n + 1) i hi
        omega

theorem gidIdxsFrom_chain (segs : List Segment) (n : Nat) :
    List.Chain' (fun a b => a < b) (gidIdxsFrom n segs) := by
  induction segs generalizing n with
  | nil => simp [gidIdxsFrom]
  | cons s rest ih =>
      simp only [gidIdxsFrom]
      by_cases hs : s.1 = "GID"
      · rw [if_pos hs]
        refine List.chain'_cons'.mpr ⟨?_, ih (n + 1)⟩
        intro y hy
        have h1 : n + 1 ≤ y := gidIdxsFrom_lb rest (n + 1) y (List.mem_of_mem_head? hy)
        omega
      · rw [if_neg hs]
        exact ih (n + 1)

theorem gidIdxsFrom_length (segs : List Segment) (n : Nat) :
    (gidIdxsFrom n segs).length = (segs.filter (fun s => s.1 = "GID")).length := by
  induction segs generalizing n with
  | nil => simp [gidIdxsFrom]
  | cons s rest ih =>
      simp only [gidIdxsFrom, List.filter_cons]
      by_cases hs : s.1 = "GID"
      · rw [if_pos hs]
        simp [hs, ih (n + 1)]
      · rw [if_neg hs]
        simp [hs, ih (n + 1)]

theorem gidSlices_length (segs : List Segment) (idxs : List Nat) :
    (gidSlices segs idxs).length = idxs.length := by
  induction idxs with
  | nil => rfl
  | cons i tail ih =>
      cases tail with
      | nil => rfl
      | cons k rest =>
          simp only [gidSlices, List.length_cons] at ih ⊢
          omega

theorem gidSlices_get? (segs : List Segment) (idxs : List Nat) (j : Nat)
    (h : j + 1 < idxs.length) :
    (gidSlices segs idxs).get? j =
      some ((segs.take (idxs.get ⟨j + 1, h⟩)).drop (idxs.get ⟨j, Nat.lt_of_succ_lt h⟩)) := by
  induction idxs generalizing j with
  | nil => simp at h
  | cons i tail ih =>
      cases tail with
      | nil => simp at h
      | cons k rest =>
          cases j with
          | zero => rfl
          | succ m =>
              have hm : m + 1 < (k :: rest).length := by
                simp only [List.length_cons] at h ⊢
                omega
              have h2 := ih m hm
              simp only [gidSlices, List.get?_cons_succ]
              rw [h2]
              rfl

theorem gidSlices_last (segs : List Segment) (idxs : List Nat) :
    (gidSlices segs idxs).get? (idxs.length - 1) = idxs.getLast?.map (fun i => segs.drop i) := by
  induction idxs with
  | nil => rfl
  | cons i tail ih =>
      cases tail with
      | nil => rfl
      | cons k rest =>
          have hlen : (i :: k :: rest).length - 1 = ((k :: rest).length - 1) + 1 := by
            simp only [List.length_cons]
            omega
          rw [hlen]
          simp only [gidSlices, List.get?_cons_succ]
          rw [ih]
          rw [List.getLast?_cons_cons]

/-- C4: with N occurrences of the GID grouping segment, `_shipment_groups`
returns exactly N slices; zero occurrences give the empty list; the GID
indices are exactly the positions whose tag is GID, in strictly
increasing source order; slice j is the contiguous run
`[gid_j, gid_(j+1))`, and the last slice runs to the end of the
sequence. -/
theorem shipment_groups_spec (segs : List Segment) :
    (_shipment_groups segs).length = (segs.filter (fun s => s.1 = "GID")).length
  ∧ ((segs.filter (fun s => s.1 = "GID")).length = 0 → _shipment_groups segs = [])
  ∧ (∀ i, i ∈ gidIdxs segs ↔ ∃ s, segs.get? i = some s ∧ s.1 = "GID")
  ∧ List.Chain' (fun a b => a < b) (gidIdxs segs)
  ∧ (∀ j, ∀ h : j + 1 < (gidIdxs segs).length,
      (_shipment_groups segs).get? j =
        some ((segs.take ((gidIdxs segs).get ⟨j + 1, h⟩)).drop
          ((gidIdxs segs).get ⟨j, Nat.lt_of_succ_lt h⟩)))
  ∧ (_shipment_groups segs).get? ((gidIdxs segs).length - 1) =
      (gidIdxs segs).getLast?.map (fun i => segs.drop i) := by
  refine ⟨?_, ?_, ?_, ?_, ?_, ?_⟩
  · rw [_shipment_groups, gidSlices_length, gidIdxs, gidIdxsFrom_length]
  · intro h0
    have hlen : (gidIdxs segs).length = 0 := by
      rw [gidIdxs, gidIdxsFrom_length]
      exact h0
    have : gidIdxs segs = [] := List.length_eq_zero.mp hlen
    rw [_shipment_groups, this]
    rfl
  · intro i
    rw [gidIdxs, mem_gidIdxsFrom]
    constructor
    · rintro ⟨j, hj, s, hs, htag⟩
      have : i = j := by omega
      exact ⟨s, this ▸ hs, htag⟩
    · rintro ⟨s, hs, htag⟩
      exact ⟨i, by omega, s, hs, htag⟩
  · exact gidIdxsFrom_chain segs 0
  · intro j h
    exact gidSlices_get? segs (gidIdxs segs) j h
  · exact gidSlices_last segs (gidIdxs segs)

/-- Witness for C4 on a concrete two-group sequence. -/
theorem shipment_groups_spec_witness :
    (_shipment_groups [("UNB", []), ("GID", ["1"]), ("LOC", ["7"]), ("GID", ["2"]), ("NAD", [])]).length = 2
  ∧ (_shipment_groups [("UNB", []), ("GID", ["1"]), ("LOC", ["7"]), ("GID", ["2"]), ("NAD", [])]).get? 0 =
      some [("GID", ["1"]), ("LOC", ["7"])]
  ∧ _shipment_groups [("UNH", [])] = [] := by
  refine ⟨?_, ?_, ?_⟩
  · rw [(shipment_groups_spec [("UNB", []), ("GID", ["1"]), ("LOC", ["7"]), ("GID", ["2"]), ("NAD", [])]).1]
    decide
  · rw [(shipment_groups_spec [("UNB", []), ("GID", ["1"]), ("LOC", ["7"]), ("GID", ["2"]), ("NAD", [])]).2.2.2.2.1 0 (by decide)]
    decide
  · exact (shipment_groups_spec [("UNH", [])]).2.1 (by decide)

/-- C5: per group, item extraction keeps one pending-item slot in source
order.  A PCI item-line segment parses quantity, unit of measure and unit
price from positions length-4, length-3 and length-2 of the
sub-element-joined field list and replaces any still-pending item without
emitting it; an `RFF+VP:` product-reference segment attaches its trailing
value and emits exactly one item (a reference-only item when none is
pending); any other segment changes nothing; at group end a pending item
is dropped, so an item-line with no following product reference yields no
item; emitted items appear in source order. -/
theorem item_pairing :
    (∀ (pending : Option Item) (elems : List String) (rest : List Segment), elems ≠ [] →
      extractItemsAux pending (("PCI", elems) :: rest) = extractItemsAux (some (pciItem elems)) rest)
  ∧ (∀ elems : List String,
      (pciItem elems).qty = (if 4 ≤ (splitOnChar ':' (joinChar ':' elems)).length then
          _to_float (some ((splitOnChar ':' (joinChar ':' elems)).getD
            ((splitOnChar ':' (joinChar ':' elems)).length - 4) "")) else none)
    ∧ (pciItem elems).uom = (if 3 ≤ (splitOnChar ':' (joinChar ':' elems)).length then
          some ((splitOnChar ':' (joinChar ':' elems)).getD
            ((splitOnChar ':' (joinChar ':' elems)).length - 3) "") else none)
    ∧ (pciItem elems).unit_price_try = (if 2 ≤ (splitOnChar ':' (joinChar ':' elems)).length then
          _to_float (some ((splitOnChar ':' (joinChar ':' elems)).getD
            ((splitOnChar ':' (joinChar ':' elems)).length - 2) "")) else none)
    ∧ (pciItem elems).asin = none)
  ∧ (∀ (pending : Option Item) (e : String) (es : List String) (rest : List Segment),
      pyStartsWith e "VP:" = true →
      extractItemsAux pending (("RFF", e :: es) :: rest) =
        ({ pending.getD {} with asin := some (pyDrop e 3) } : Item) :: extractItemsAux none rest)
  ∧ (∀ (pending : Option Item) (tag : String) (elems : List String) (rest : List Segment),
      ¬(tag = "PCI" ∧ elems ≠ []) →
      ¬(tag = "RFF" ∧ elems ≠ [] ∧ pyStartsWith (elems.headD "") "VP:" = true) →
      extractItemsAux pending ((tag, elems) :: rest) = extractItemsAux pending rest)
  ∧ (∀ pending : Option Item, extractItemsAux pending [] = []) := by
  refine ⟨?_, ?_, ?_, ?_, ?_⟩
  · intro pending elems rest h
    simp [extractItemsAux, h]
  · intro elems
    exact ⟨rfl, rfl, rfl, rfl⟩
  · intro pending e es rest h
    rw [extractItemsAux]
    rw [if_neg (by simp), if_pos (by simp [h])]
    rfl
  · intro pending tag elems rest h1 h2
    rw [extractItemsAux]
    rw [if_neg h1, if_neg h2]
  · intro pending
    rfl

/-- Witness for C5 at the item-line/reference pair of the reference
interchange. -/
theorem item_pairing_witness :
    extractItemsAux none
        [("PCI", ["ZZZ", "Unknown:0000.00.0000:TR:1:EA:528,00:528,00"]), ("RFF", ["VP:B0B8TH8P45"])] =
      extractItemsAux (some (pciItem ["ZZZ", "Unknown:0000.00.0000:TR:1:EA:528,00:528,00"]))
        [("RFF", ["VP:B0B8TH8P45"])]
  ∧ extractItemsAux (some (pciItem ["ZZZ", "Unknown:0000.00.0000:TR:1:EA:528,00:528,00"]))
        [("RFF", ["VP:B0B8TH8P45"])] =
      [{ (pciItem ["ZZZ", "Unknown:0000.00.0000:TR:1:EA:528,00:528,00"]) with
          asin := some (pyDrop "VP:B0B8TH8P45" 3) }]
  ∧ extractItemsAux none [("PCI", ["ZZZ"]), ("UNT", ["92"])] = [] :=
  ⟨item_pairing.1 none _ _ (by decide),
   item_pairing.2.2.1 (some (pciItem ["ZZZ", "Unknown:0000.00.0000:TR:1:EA:528,00:528,00"]))
     "VP:B0B8TH8P45" [] [] (by decide),
   by
    rw [item_pairing.1 none ["ZZZ"] [("UNT", ["92"])] (by decide)]
    rw [item_pairing.2.2.2.1 (some (pciItem ["ZZZ"])) "UNT" ["92"] [] (by decide) (by decide)]
    exact item_pairing.2.2.2.2 (some (pciItem ["ZZZ"]))⟩

theorem strptime203_length (v s : String) (h : strptime203 v = some s) : v.length = 12 := by
  simp only [strptime203] at h
  split_ifs at h with h1 h2
  exact h1.1

theorem strptime204_length (v s : String) (h : strptime204 v = some s) : v.length = 14 := by
  simp only [strptime204] at h
  split_ifs at h with h1 h2
  exact h1.1

theorem strptime102_length (v s : String) (h : strptime102 v = some s) : v.length = 8 := by
  simp only [strptime102] at h
  split_ifs at h with h1 h2
  exact h1.1

/-- C6: `_dtm` maps format 203 on a valid 12-character `yyyymmddHHMM`
value to `YYYY-MM-DD HH:MM`, 204 on 14 characters to
`YYYY-MM-DD HH:MM:SS`, 102 on 8 characters to `YYYY-MM-DD`; a length
mismatch or a strptime failure (and any other format code) returns the
raw value unchanged. -/
theorem dtm_formats :
    _dtm "202510130023" "203" = "2025-10-13 00:23"
  ∧ _dtm "20251013" "102" = "2025-10-13"
  ∧ _dtm "20251013" "203" = "20251013"
  ∧ (∀ v s, strptime203 v = some s → _dtm v "203" = s)
  ∧ (∀ v s, strptime204 v = some s → _dtm v "204" = s)
  ∧ (∀ v s, strptime102 v = some s → _dtm v "102" = s)
  ∧ (∀ v, strptime203 v = none → _dtm v "203" = v)
  ∧ (∀ v, strptime204 v = none → _dtm v "204" = v)
  ∧ (∀ v, strptime102 v = none → _dtm v "102" = v)
  ∧ (∀ v f, f ≠ "203" → f ≠ "204" → f ≠ "102" → _dtm v f = v) := by
  refine ⟨by decide, by decide, by decide, ?_, ?_, ?_, ?_, ?_, ?_, ?_⟩
  · intro v s h
    unfold _dtm
    rw [if_pos ⟨rfl, strptime203_length v s h⟩, h]
  · intro v s h
    unfold _dtm
    rw [if_neg (by simp), if_pos ⟨rfl, strptime204_length v s h⟩, h]
  · intro v s h
    unfold _dtm
    rw [if_neg (by simp), if_neg (by simp), if_pos ⟨rfl, strptime102_length v s h⟩, h]
  · intro v h
    by_cases hlen : v.length = 12
    · unfold _dtm
      rw [if_pos ⟨rfl, hlen⟩, h]
    · unfold _dtm
      rw [if_neg (fun hc => hlen hc.2), if_neg (by simp), if_neg (by simp)]
  · intro v h
    by_cases hlen : v.length = 14
    · unfold _dtm
      rw [if_neg (by simp), if_pos ⟨rfl, hlen⟩, h]
    · unfold _dtm
      rw [if_neg (by simp), if_neg (fun hc => hlen hc.2), if_neg (by simp)]
  · intro v h
    by_cases hlen : v.length = 8
    · unfold _dtm
      rw [if_neg (by simp), if_neg (by simp), if_pos ⟨rfl, hlen⟩, h]
    · unfold _dtm
      rw [if_neg (by simp), if_neg (by simp), if_neg (fun hc => hlen hc.2)]
  · intro v f h1 h2 h3
    unfold _dtm
    rw [if_neg (fun hc => h1 hc.1), if_neg (fun hc => h2 hc.1), if_neg (fun hc => h3 hc.1)]

/-- Witness for C6 with every hypothesis discharged at concrete values. -/
theorem dtm_formats_witness :
    _dtm "202512312359" "203" = "2025-12-31 23:59"
  ∧ _dtm "20251013002345" "204" = "2025-10-13 00:23:45"
  ∧ _dtm "20240229" "102" = "2024-02-29"
  ∧ _dtm "2025" "203" = "2025"
  ∧ _dtm "20251313002345" "204" = "20251313002345"
  ∧ _dtm "20240230" "102" = "20240230"
  ∧ _dtm "20251013" "999" = "20251013" := by
  refine ⟨?_, ?_, ?_, ?_, ?_, ?_, ?_⟩
  · exact dtm_formats.2.2.2.1 _ _ (by decide)
  · exact dtm_formats.2.2.2.2.1 _ _ (by decide)
  · exact dtm_formats.2.2.2.2.2.1 _ _ (by decide)
  · exact dtm_formats.2.2.2.2.2.2.1 _ (by decide)
  · exact dtm_formats.2.2.2.2.2.2.2.1 _ (by decide)
  · exact dtm_formats.2.2.2.2.2.2.2.2.1 _ (by decide)
  · exact dtm_formats.2.2.2.2.2.2.2.2.2 _ _ (by decide) (by decide) (by decide)

theorem pyTrunc_zero : pyTrunc 0 = 0 := by decide

/-- C7: the counts decoder maps qualifier 2 to line_count as an integer
(value "6" gives 6), 7 to total_gross_weight_kg as a float, 8 to
shipment_count as an integer and 12 to total_value (the
`total_value_eur` key) as a float (value "63.37" gives 63.37); a segment
with an unknown qualifier leaves the result untouched; a non-numeric or
missing value yields zero for the integer fields and leaves the float
fields absent. -/
theorem counts_mapping :
    (counts_and_amounts [("CNT", ["2:6"])]).line_count = some 6
  ∧ (counts_and_amounts [("CNT", ["12:63.37"])]).total_value_eur = some ((6337 : ℚ) / 100)
  ∧ (counts_and_amounts [("CNT", ["7:6,0"])]).total_gross_weight_kg = some 6
  ∧ (counts_and_amounts [("CNT", ["8:2"])]).shipment_count = some 2
  ∧ (∀ q v : String, (':' : Char) ∉ q.toList →
      q ≠ "2" → q ≠ "7" → q ≠ "8" → q ≠ "12" →
      counts_and_amounts [("CNT", [q ++ ":" ++ v])] = {})
  ∧ (∀ v : String, (':' : Char) ∉ v.toList → _to_float (some v) = none →
        (counts_and_amounts [("CNT", ["2:" ++ v])]).line_count = some 0
      ∧ (counts_and_amounts [("CNT", ["7:" ++ v])]).total_gross_weight_kg = none
      ∧ (counts_and_amounts [("CNT", ["8:" ++ v])]).shipment_count = some 0
      ∧ (counts_and_amounts [("CNT", ["12:" ++ v])]).total_value_eur = none)
  ∧ (counts_and_amounts [("CNT", ["2"])]).line_count = some 0
  ∧ (counts_and_amounts [("CNT", ["7"])]).total_gross_weight_kg = none
  ∧ (counts_and_amounts [("CNT", ["12"])]).total_value_eur = none := by
  refine ⟨by decide, ?_, ?_, by decide, ?_, ?_, by decide, by decide, by decide⟩
  · have h : (counts_and_amounts [("CNT", ["12:63.37"])]).total_value_eur =
        some ((63 : ℚ) + 37 / 10 ^ 2) := rfl
    rw [h]
    norm_num
  · have h : (counts_and_amounts [("CNT", ["7:6,0"])]).total_gross_weight_kg =
        some ((6 : ℚ) + 0 / 10 ^ 1) := rfl
    rw [h]
    norm_num
  · intro q v hq h2 h7 h8 h12
    have hsplit : splitOnChar ':' (q ++ ":" ++ v) = q :: splitOnChar ':' v :=
      splitOnChar_sep_append ':' q v hq
    show cntStep {} ("CNT", [q ++ ":" ++ v]) = {}
    simp [cntStep, hsplit, h2, h7, h8, h12]
  · intro v hv hfloat
    have hempty : splitOnChar ':' v = [v] := splitOnChar_no_sep ':' v hv
    have hs2 : splitOnChar ':' ("2:" ++ v) = ["2", v] := by
      have h := splitOnChar_sep_append ':' "2" v (by decide)
      rw [hempty] at h
      exact h
    have hs7 : splitOnChar ':' ("7:" ++ v) = ["7", v] := by
      have h := splitOnChar_sep_append ':' "7" v (by decide)
      rw [hempty] at h
      exact h
    have hs8 : splitOnChar ':' ("8:" ++ v) = ["8", v] := by
      have h := splitOnChar_sep_append ':' "8" v (by decide)
      rw [hempty] at h
      exact h
    have hs12 : splitOnChar ':' ("12:" ++ v) = ["12", v] := by
      have h := splitOnChar_sep_append ':' "12" v (by decide)
      rw [hempty] at h
      exact h
    refine ⟨?_, ?_, ?_, ?_⟩
    · show (cntStep {} ("CNT", ["2:" ++ v])).line_count = some 0
      simp [cntStep, hs2, hfloat, pyTrunc_zero]
    · show (cntStep {} ("CNT", ["7:" ++ v])).total_gross_weight_kg = none
      simp [cntStep, hs7, hfloat]
    · show (cntStep {} ("CNT", ["8:" ++ v])).shipment_count = some 0
      simp [cntStep, hs8, hfloat, pyTrunc_zero]
    · show (cntStep {} ("CNT", ["12:" ++ v])).total_value_eur = none
      simp [cntStep, hs12, hfloat]

/-- Witness for C7 with the hypotheses discharged at concrete values. -/
theorem counts_mapping_witness :
    counts_and_amounts [("CNT", ["99" ++ ":" ++ "5"])] = {}
  ∧ (counts_and_amounts [("CNT", ["2:" ++ "x"])]).line_count = some 0
  ∧ (counts_and_amounts [("CNT", ["7:" ++ "x"])]).total_gross_weight_kg = none :=
  ⟨counts_mapping.2.2.2.2.1 "99" "5" (by decide) (by decide) (by decide) (by decide) (by decide),
   (counts_mapping.2.2.2.2.2.1 "x" (by decide) (by decide)).1,
   (counts_mapping.2.2.2.2.2.1 "x" (by decide) (by decide)).2.1⟩

/-- C8: for a consignee (qualifier CN) name/address segment inside a
group, the consignee record has: name = 3rd element, space-joined with
the 4th element when the 4th is present and non-empty, the join trimmed
of plus signs and spaces at both ends; street = 5th element with every
sub-element separator rendered as a literal space (never retained);
city/state/zip/country = 6th through 9th elements, the empty string when
the segment is short. -/
theorem consignee_fields :
    (∀ (r : ShipRecord) (elems : List String), elems.headD "" = "CN" →
      shipStep r ("NAD", elems) = Except.ok { r with consignee := some {
        name := pyStripChars ['+', Char.ofNat 32]
          ((elems.getD 2 "") ++ (if elems.getD 3 "" ≠ "" then " " ++ elems.getD 3 "" else "")),
        street := mapColonSpace (elems.getD 4 ""),
        city := elems.getD 5 "",
        state := elems.getD 6 "",
        zip := elems.getD 7 "",
        country := elems.getD 8 "" } })
  ∧ (∀ s : String, (':' : Char) ∉ (mapColonSpace s).toList) := by
  constructor
  · intro r elems h
    have hne : elems ≠ [] := by
      intro he
      subst he
      simp at h
    have h' : elems.head?.getD "" = "CN" := by simpa using h
    simp [shipStep, h', hne]
  · intro s hmem
    simp only [mapColonSpace, toList_mk, List.mem_map] at hmem
    obtain ⟨c, hc, hcc⟩ := hmem
    by_cases h : c = ':'
    · rw [if_pos h] at hcc
      exact absurd hcc (by decide)
    · rw [if_neg h] at hcc
      exact h hcc

/-- Witness for C8 at a concrete consignee segment whose street composite
contains sub-element separators. -/
theorem consignee_fields_witness :
    shipStep {} ("NAD", ["CN", "", "SELO", "X", "Kemal:Cad.", "Afyon", "D", "03200", "TR"]) =
      Except.ok { consignee := some { name := "SELO X", street := "Kemal Cad.", city := "Afyon", state := "D", zip := "03200", country := "TR" } }
  ∧ (':' : Char) ∉ (mapColonSpace "Kemal:Cad.").toList := by
  constructor
  · have h := consignee_fields.1 {} ["CN", "", "SELO", "X", "Kemal:Cad.", "Afyon", "D", "03200", "TR"]
      (by decide)
    rw [h]
    rfl
  · exact consignee_fields.2 "Kemal:Cad."

theorem toList_colon : (":" : String).toList = [':'] := rfl

theorem dt_toList (d t : String) :
    (d ++ ":" ++ t).toList = d.toList ++ ':' :: t.toList := by
  simp only [toList_append, toList_colon, List.append_assoc, List.singleton_append]

theorem dt_contains (d t : String) : ((d ++ ":" ++ t).toList.contains ':') = true := by
  rw [dt_toList]
  simp [List.contains]

theorem dt_ne_empty (d t : String) : d ++ ":" ++ t ≠ "" := by
  intro he
  have h1 : (d ++ ":" ++ t).toList = [] := by rw [he]; rfl
  rw [dt_toList] at h1
  simp at h1

/-- C9: in `header`, element 3 of a UNB interchange-identity segment of
the form `date:time` is parsed as a 2-digit-year `yymmddHHMM` value and
rendered `YYYY-MM-DD HH:MM`; on any strptime failure the raw element
value passes through unchanged as the `interchange_datetime` field. -/
theorem unb_datetime :
    (∀ (pre : List Segment) (e0 e1 e2 e4 d t : String), (':' : Char) ∉ d.toList →
      (header (pre ++ [("UNB", [e0, e1, e2, d ++ ":" ++ t, e4])])).interchange_datetime =
        some ((strptimeUNB (d ++ t)).getD (d ++ ":" ++ t)))
  ∧ (header [("UNB", ["UNOC:3", "S:14", "R:14", "251013:0023", "2243369"])]).interchange_datetime =
      some "2025-10-13 00:23"
  ∧ (header [("UNB", ["UNOC:3", "S:14", "R:14", "25x013:0023", "2243369"])]).interchange_datetime =
      some "25x013:0023" := by
  refine ⟨?_, by decide, by decide⟩
  intro pre e0 e1 e2 e4 d t hd
  have hsplit : splitOnce ':' (d ++ ":" ++ t) = (d, t) := splitOnce_sep_append ':' d t hd
  rw [header, List.foldl_append]
  simp only [List.foldl_cons, List.foldl_nil]
  simp [headerStep, hsplit, dt_contains d t, dt_ne_empty d t]

/-- Witness for C9 at the reference interchange UNB segment. -/
theorem unb_datetime_witness :
    (header ([] ++ [("UNB", ["UNOC:3", "5450534000000:14", "MNGMFN:14", "251013" ++ ":" ++ "0023", "2243369"])])).interchange_datetime =
      some ((strptimeUNB ("251013" ++ "0023")).getD ("251013" ++ ":" ++ "0023")) :=
  unb_datetime.1 [] "UNOC:3" "5450534000000:14" "MNGMFN:14" "2243369" "251013" "0023" (by decide)

theorem dictGet_upsert_self (k : String) (f : Party → Party) (ps : List (String × Party)) :
    dictGet k (dictUpsert k f ps) = some (f ((dictGet k ps).getD {})) := by
  induction ps with
  | nil => simp [dictGet, dictUpsert]
  | cons p rest ih =>
      obtain ⟨k1, v⟩ := p
      by_cases hk : k1 = k
      · subst hk
        simp [dictGet, dictUpsert]
      · simp [dictGet, dictUpsert, hk, ih]

theorem dictGet_upsert_other (k k1 : String) (f : Party → Party) (ps : List (String × Party))
    (h : k1 ≠ k) : dictGet k (dictUpsert k1 f ps) = dictGet k ps := by
  induction ps with
  | nil => simp [dictGet, dictUpsert, h]
  | cons p rest ih =>
      obtain ⟨k2, v⟩ := p
      by_cases hk : k2 = k1
      · subst hk
        simp [dictGet, dictUpsert, h]
      · simp [dictGet, dictUpsert, hk, ih]

theorem partyStep_cta_pres (ps : List (String × Party)) (s : Segment)
    (hcta : s.1 ≠ "CTA") (hnad : s.1 = "NAD" → s.2.headD "" ≠ "CTA")
    (hps : dictGet "CTA" ps = none ∨ ∃ x, dictGet "CTA" ps = some { tel := some x }) :
    dictGet "CTA" (partyStep ps s) = none ∨
      ∃ x, dictGet "CTA" (partyStep ps s) = some { tel := some x } := by
  simp only [partyStep]
  split_ifs with h1 h2 h3 h4
  · rw [dictGet_upsert_other _ _ _ _ (hnad h1.1)]
    exact hps
  · exact absurd h2.1 hcta
  · right
    rw [dictGet_upsert_self]
    rcases hps with hnone | ⟨x, hx⟩
    · rw [hnone]
      exact ⟨_, rfl⟩
    · rw [hx]
      exact ⟨_, rfl⟩
  · rw [dictGet_upsert_other _ _ _ _ (by decide)]
    exact hps
  · exact hps

theorem parties_cta_inv (segs : List Segment) (ps : List (String × Party))
    (h : ∀ s ∈ segs, s.1 ≠ "CTA" ∧ (s.1 = "NAD" → s.2.headD "" ≠ "CTA"))
    (hps : dictGet "CTA" ps = none ∨ ∃ x, dictGet "CTA" ps = some { tel := some x }) :
    dictGet "CTA" (segs.foldl partyStep ps) = none ∨
      ∃ x, dictGet "CTA" (segs.foldl partyStep ps) = some { tel := some x } := by
  induction segs generalizing ps with
  | nil => simpa using hps
  | cons s rest ih =>
      rw [List.foldl_cons]
      refine ih (partyStep ps s) (fun u hu => h u (List.mem_cons_of_mem _ hu)) ?_
      exact partyStep_cta_pres ps s (h s (List.mem_cons_self _ _)).1 (h s (List.mem_cons_self _ _)).2 hps

/-- C10: a COM communication segment creates the synthetic "CTA" party
even when no CTA contact segment occurs anywhere in the message, setting
its phone to the sub-element before the separator; the resulting
synthetic party carries a phone but no role (and no other field). -/
theorem com_creates_cta (segs : List Segment) (e : String) (es : List String)
    (h : ∀ s ∈ segs, s.1 ≠ "CTA" ∧ (s.1 = "NAD" → s.2.headD "" ≠ "CTA")) :
    dictGet "CTA" (parties (segs ++ [("COM", e :: es)])) =
      some { tel := some ((splitOnChar ':' e).headD "") } := by
  rw [parties, List.foldl_append]
  simp only [List.foldl_cons, List.foldl_nil]
  have hinv := parties_cta_inv segs [] h (Or.inl rfl)
  have hstep : partyStep (segs.foldl partyStep []) ("COM", e :: es) =
      dictUpsert "CTA" (fun p => { p with tel := some ((splitOnChar ':' e).headD "") })
        (segs.foldl partyStep []) := by
    simp [partyStep]
  rw [hstep, dictGet_upsert_self]
  rcases hinv with hnone | ⟨x, hx⟩
  · rw [hnone]
    rfl
  · rw [hx]
    rfl

/-- Witness for C10: a COM segment with no CTA segment anywhere. -/
theorem com_creates_cta_witness :
    dictGet "CTA" (parties [("UNB", ["UNOC:3"]), ("COM", ["0161081000", "TE"])]) =
      some { tel := some "0161081000" } :=
  com_creates_cta [("UNB", ["UNOC:3"])] "0161081000" ["TE"] (by simp)

/-- C1 (code bug): two statements of `shipments` raise for non-conforming
input, contradicting the never-raise policy: `int(float(qty))` on a GID
grouping segment whose quantity is not numeric, and the two-target
unpacking of a MEA measurement composite containing more than one
sub-element separator.  The other decode calls return sparse results on
the same input. -/
theorem shipments_raises :
    shipments (split_segments ("GID+1+x:PK" ++ SEG_SEP)) =
      Except.error "ValueError: could not convert string to float"
  ∧ shipments (split_segments ("GID+1+5:PK" ++ SEG_SEP ++ "MEA+WT+G+KG:1:2" ++ SEG_SEP)) =
      Except.error "ValueError: too many values to unpack"
  ∧ header (split_segments ("GID+1+x:PK" ++ SEG_SEP)) = {}
  ∧ counts_and_amounts (split_segments ("GID+1+x:PK" ++ SEG_SEP)) = {}
  ∧ parties (split_segments ("GID+1+x:PK" ++ SEG_SEP)) = [] :=
  ⟨rfl, rfl, rfl, rfl, rfl⟩

theorem split_segments_no_plus (text : String) :
    ∀ seg ∈ split_segments text, ∀ e ∈ seg.2, ('+' : Char) ∉ e.toList := by
  intro seg hseg e he
  simp only [split_segments, List.mem_map] at hseg
  obtain ⟨p, hp, hpe⟩ := hseg
  subst hpe
  simp only [List.mem_map] at he
  obtain ⟨x, hx, hxe⟩ := he
  subst hxe
  rw [toList_mk]
  exact mem_splitOnCharL '+' p [] x (by simp) (List.mem_of_mem_tail hx)

theorem warehouse_ite (c : Prop) [inst : Decidable c] (A B : Header) (w : Option String)
    (hA : A.warehouse = w) (hB : B.warehouse = w) : (if c then A else B).warehouse = w := by
  split_ifs <;> assumption

theorem headerStep_warehouse (d : Header) (tag : String) (elems : List String)
    (h : ∀ e ∈ elems, ('+' : Char) ∉ e.toList) :
    (headerStep d (tag, elems)).warehouse = d.warehouse := by
  unfold headerStep
  dsimp only
  by_cases h1 : tag = "UNB"
  · rw [if_pos h1]
    exact warehouse_ite _ _ _ _ rfl rfl
  rw [if_neg h1]
  by_cases h2 : tag = "UNH"
  · rw [if_pos h2]
  rw [if_neg h2]
  by_cases h3 : tag = "BGM"
  · rw [if_pos h3]
  rw [if_neg h3]
  by_cases h4 : tag = "DTM"
  · rw [if_pos h4]
    refine warehouse_ite _ _ _ _ ?_ rfl
    refine warehouse_ite _ _ _ _ ?_ rfl
    refine warehouse_ite _ _ _ _ rfl ?_
    exact warehouse_ite _ _ _ _ rfl rfl
  rw [if_neg h4]
  by_cases h5 : tag = "CUX"
  · rw [if_pos h5]
    exact warehouse_ite _ _ _ _ rfl rfl
  rw [if_neg h5]
  by_cases h6 : tag = "TOD"
  · rw [if_pos h6]
    exact warehouse_ite _ _ _ _ rfl rfl
  rw [if_neg h6]
  by_cases h7 : tag = "LOC"
  · rw [if_pos h7]
    rcases elems with _ | ⟨e0, erest⟩
    · rw [if_neg (by simp)]
    · have h0 : ('+' : Char) ∉ e0.toList := h e0 (List.mem_cons_self _ _)
      have hsing : splitOnChar '+' e0 = [e0] := splitOnChar_no_sep '+' e0 h0
      have hne : e0 ≠ "198+WTAM" := by
        intro he
        rw [he] at h0
        exact h0 (by decide)
      rw [if_pos (by simp)]
      dsimp only [List.headD_cons]
      rw [if_neg hne]
      by_cases hstart : pyStartsWith e0 "198" = true
      · rw [if_pos hstart, hsing]
        rw [if_neg (by simp)]
      · rw [if_neg hstart]
  · rw [if_neg h7]

/-- C2 (code bug): `header` never sets the warehouse field, for any input
text: the tokenizer consumes every element separator, so a location
element can never equal the literal `"198+WTAM"` nor contain an embedded
separator to split on; both warehouse code paths are dead. -/
theorem warehouse_never_set :
    (∀ text : String, (header (split_segments text)).warehouse = none)
  ∧ (header (split_segments ("LOC+198+WTAM" ++ SEG_SEP))).warehouse = none := by
  have hfold : ∀ (l : List Segment) (d : Header),
      (∀ seg ∈ l, ∀ e ∈ seg.2, ('+' : Char) ∉ e.toList) →
      (l.foldl headerStep d).warehouse = d.warehouse := by
    intro l
    induction l with
    | nil =>
        intro d _
        rfl
    | cons s rest ih =>
        intro d hl
        rw [List.foldl_cons]
        rw [ih _ (fun seg hs => hl seg (List.mem_cons_of_mem _ hs))]
        exact headerStep_warehouse d s.1 s.2 (hl s (List.mem_cons_self _ _))
  have hgen : ∀ text : String, (header (split_segments text)).warehouse = none :=
    fun text => hfold (split_segments text) {} (split_segments_no_plus text)
  exact ⟨hgen, hgen _⟩

/-- C3 (code bug): inside a shipment group, a location segment stores the
qualifier token itself, not the remainder of the composite: the
tokenizer has already split `LOC+7+Afyonkarahisar` so the first element
is just `"7"`, and `first.split("+")[-1]` returns it unchanged; the
destination city becomes `"7"` instead of `"Afyonkarahisar"` (and
likewise `"25"` for the country and `"193"` for the route). -/
theorem loc_stores_qualifier :
    shipments (split_segments ("GID+1+5:PK" ++ SEG_SEP ++ "LOC+7+Afyonkarahisar" ++ SEG_SEP ++
        "LOC+25+Turkey" ++ SEG_SEP ++ "LOC+193+MNG-TR-WTAM" ++ SEG_SEP)) =
      Except.ok [{ packages := some 5, destination_city := some "7", destination_country := some "25", route := some "193" }] := rfl
